import Mathlib

/-!
Verification of the `pid` Go package: a discrete-time PID controller with
configurable gains, low-pass filters, trapezoidal/rectangular integration,
output clamping and integral anti-windup clamping, plus a Prometheus metrics
registration helper.

Embedding conventions:
* Go `float64` runtime values (targets, measurements, gains, filter constants,
  accumulator state) are modelled as exact rationals `ℚ`: the arithmetic the
  code performs is ordinary field arithmetic, idealised without rounding and
  without NaN.  Division by zero in `ℚ` yields 0 (Lean convention) where Go
  would produce ±Inf/NaN; this only matters for `delta = 0` time steps, which
  the package documents as caller error.
* Limit bounds are modelled as `WithBot (WithTop ℚ)` (written `F` below)
  because `New` constructs the default bounds with `math.Inf(-1)` and
  `math.Inf(1)`.  Go's builtin `min`/`max` on non-NaN floats coincide with the
  lattice `min`/`max` of this linear order.
* `time.Duration` is an `Int` number of nanoseconds; `Duration.Seconds` is the
  (idealised, exact) division by 10^9.
* Mutation of the `Controller` receiver becomes explicit state passing:
  `Update` returns the new controller state together with the control signal.
-/

namespace Pid

/-- Extended rationals: the value space of Go `float64` limit bounds, with
`⊥`/`⊤` standing for `math.Inf(-1)`/`math.Inf(1)` and finite values exact
rationals.  NaN is not modelled. -/
abbrev F : Type := WithBot (WithTop ℚ)

/-- Embeds a finite rational into the extended value space `F`. -/
def ofQ (q : ℚ) : F := ((q : WithTop ℚ) : F)

/-- Division of an extended bound by a finite divisor, as used by `New` in
`cfg.outputLimit.lower / cfg.integralGain`.  For a positive divisor (the only
way `New` calls it, guarded by `cfg.integralGain > 0.0`) this agrees with Go
float division: `-Inf / g = -Inf`, `+Inf / g = +Inf`, finite `q / g`. -/
def edivPos (x : F) (g : ℚ) : F := WithBot.map (WithTop.map (fun q => q / g)) x

/-- Go struct `limit` (part_003): a closed interval given by two bounds. -/
structure limit where
  lower : F
  upper : F
deriving DecidableEq

/-- Go `newLimit` (part_003): stores the two bounds; inverted bounds are not
rejected. -/
def newLimit (lower upper : F) : limit :=
  { lower := lower, upper := upper }

/-- Go `limit.apply` (part_003): `min(max(l.lower, value), l.upper)`.  Go's
`min`/`max` on non-NaN floats are the lattice operations of `F`. -/
def limit.apply (l : limit) (value : F) : F :=
  min (max l.lower value) l.upper

/-- The clamp specialised to a finite input producing a finite output, used to
keep the controller's `float64` state in `ℚ`.  For every limit the controller
can actually hold (`lower ≠ ⊤` and `upper ≠ ⊥`, true of the infinite defaults
and of every user-supplied finite bound) the `unbot'`/`untop'` defaults are
unreachable and this is exactly `limit.apply` (lemmas `clampQ_coe_coe`,
`clampQ_bot_top`, `clampQ_bot_coe`, `clampQ_coe_top`). -/
def limit.clampQ (l : limit) (value : ℚ) : ℚ :=
  ((l.apply (ofQ value)).unbot' 0).untop' 0

/-- Go struct `Controller` (part_000): gains, step memory, limits, filter
constants and the integration-mode flag. -/
structure Controller where
  proportionalGain : ℚ
  integralGain : ℚ
  derivativeGain : ℚ
  prevControlError : ℚ
  integral : ℚ
  derivative : ℚ
  outputLimit : limit
  integralLimit : limit
  lowPassFilterError : ℚ
  lowPassFilterDerivative : ℚ
  trapezoidalIntegral : Bool
deriving DecidableEq

/-- Go `Controller.updateIntegral` (part_000): trapezoidal or rectangular
accumulation of the error over the step. -/
def Controller.updateIntegral (c : Controller) (controlError step : ℚ) : ℚ :=
  if c.trapezoidalIntegral then
    c.integral + step * (controlError + c.prevControlError) / 2
  else
    c.integral + controlError * step

/-- Go `Controller.updateDerivative` (part_000): finite difference, optionally
replaced by the filtered derivative combining the previous estimate. -/
def Controller.updateDerivative (c : Controller) (controlError step : ℚ) : ℚ :=
  let derivative := (controlError - c.prevControlError) / step
  if c.lowPassFilterDerivative ≠ 0 then
    ((controlError - c.prevControlError) + c.lowPassFilterDerivative * c.derivative) /
      (step + c.lowPassFilterDerivative)
  else
    derivative

/-- Go `Controller.Update` (part_000): computes the next control signal for
the given target and measurement over the time step `delta` (nanoseconds, the
representation of `time.Duration`), and returns the mutated controller state
together with the clamped output. -/
def Controller.Update (c : Controller) (target current : ℚ) (delta : ℤ) :
    Controller × ℚ :=
  let step : ℚ := (delta : ℚ) / 1000000000
  let rawControlError := target - current
  let controlError :=
    if c.lowPassFilterError ≠ 0 then
      (rawControlError * step + c.prevControlError * c.lowPassFilterError) /
        (c.lowPassFilterError + step)
    else rawControlError
  let integral := c.integralLimit.clampQ (c.updateIntegral controlError step)
  let derivative := c.updateDerivative controlError step
  let output := c.proportionalGain * controlError + c.integralGain * integral +
    c.derivativeGain * derivative
  ({ c with
      integral := integral
      derivative := derivative
      prevControlError := controlError },
    c.outputLimit.clampQ output)

/-- Go struct `options` (part_000): the configuration accumulated by the
functional options before `New` derives the controller. -/
structure options where
  proportionalGain : ℚ
  integralGain : ℚ
  derivativeGain : ℚ
  outputLimit : limit
  trapezoidalIntegral : Bool
  lowPassFilterError : ℚ
  lowPassFilterDerivative : ℚ
deriving DecidableEq

/-- Go type `Option` (part_000): a functional option mutating the
configuration, with the possibility of failure. -/
def Option : Type := options → Except String options

/-- Go `WithStandardForm` (part_000): derives all gains and both filter
constants from the standard PID form. -/
def WithStandardForm (proportionalGain integralTimeConstant derivativeTimeConstant : ℚ) :
    Option := fun o =>
  .ok { o with
    proportionalGain := proportionalGain
    integralGain := proportionalGain / integralTimeConstant
    derivativeGain := proportionalGain * derivativeTimeConstant
    lowPassFilterDerivative := derivativeTimeConstant / 8
    lowPassFilterError := derivativeTimeConstant / 64 }

/-- Go `WithZieglerNicholsMethod` (part_000): delegates to the standard form
with `Kp = 0.6 Ku`, `Ti = Tu/2`, `Td = Tu/8`. -/
def WithZieglerNicholsMethod (ultimateGain oscillationPeriod : ℚ) : Option :=
  WithStandardForm (0.6 * ultimateGain) (oscillationPeriod / 2) (oscillationPeriod / 8)

/-- Go `WithProportionalGain` (part_000). -/
def WithProportionalGain (proportionalGain : ℚ) : Option := fun o =>
  .ok { o with proportionalGain := proportionalGain }

/-- Go `WithIntegralGain` (part_000). -/
def WithIntegralGain (integralGain : ℚ) : Option := fun o =>
  .ok { o with integralGain := integralGain }

/-- Go `WithDerivativeGain` (part_000). -/
def WithDerivativeGain (derivativeGain : ℚ) : Option := fun o =>
  .ok { o with derivativeGain := derivativeGain }

/-- Go `WithLowPassFilterError` (part_000). -/
def WithLowPassFilterError (lowPassFilterError : ℚ) : Option := fun o =>
  .ok { o with lowPassFilterError := lowPassFilterError }

/-- Go `WithOutputLimit` (part_000): clamps the controller output to the
provided bounds.  User-supplied bounds are modelled as finite rationals; the
infinite default bounds come from `New` itself. -/
def WithOutputLimit (lower upper : ℚ) : Option := fun o =>
  .ok { o with outputLimit := newLimit (ofQ lower) (ofQ upper) }

/-- Go `WithTrapezoidalIntegral` (part_000). -/
def WithTrapezoidalIntegral (enabled : Bool) : Option := fun o =>
  .ok { o with trapezoidalIntegral := enabled }

/-- Go `WithOptions` (part_000): applies a list of options in sequence,
stopping at the first error. -/
def WithOptions (opts : List Option) : Option := fun o =>
  opts.foldlM (fun acc opt => opt acc) o

/-- Go `New` (part_000): applies the options to the defaults, then derives
`integralLimit` from the final `outputLimit` and `integralGain`. -/
def New (opts : List Option) : Except String Controller := do
  let cfg₀ : options :=
    { proportionalGain := 1
      integralGain := 0
      derivativeGain := 0
      outputLimit := newLimit ⊥ ⊤
      trapezoidalIntegral := false
      lowPassFilterError := 0
      lowPassFilterDerivative := 0 }
  let cfg ← WithOptions opts cfg₀
  let integralLimit :=
    if cfg.integralGain > 0 then
      newLimit (edivPos cfg.outputLimit.lower cfg.integralGain)
        (edivPos cfg.outputLimit.upper cfg.integralGain)
    else
      newLimit ⊥ ⊤
  return {
    proportionalGain := cfg.proportionalGain
    integralGain := cfg.integralGain
    derivativeGain := cfg.derivativeGain
    prevControlError := 0
    integral := 0
    derivative := 0
    outputLimit := cfg.outputLimit
    integralLimit := integralLimit
    trapezoidalIntegral := cfg.trapezoidalIntegral
    lowPassFilterError := cfg.lowPassFilterError
    lowPassFilterDerivative := cfg.lowPassFilterDerivative }

/-- Iterates `Update` over a call history of `(target, current, delta)`
triples, returning the final controller state. -/
def runUpdates (c : Controller) (calls : List (ℚ × ℚ × ℤ)) : Controller :=
  calls.foldl (fun c args => (c.Update args.1 args.2.1 args.2.2).1) c

/-- The controller produced by `New(WithOutputLimit(3, -3))`: an inverted
output bound, accepted without validation. -/
def cInverted : Controller :=
  { proportionalGain := 1, integralGain := 0, derivativeGain := 0,
    prevControlError := 0, integral := 0, derivative := 0,
    outputLimit := newLimit (ofQ 3) (ofQ (-3)), integralLimit := newLimit ⊥ ⊤,
    lowPassFilterError := 0, lowPassFilterDerivative := 0, trapezoidalIntegral := false }

/-- The controller produced by
`New(WithIntegralGain(1), WithOutputLimit(3, -3))`: a positive integral gain
together with an inverted output bound, so the derived `integralLimit` is
inverted as well. -/
def cInvertedKi : Controller :=
  { proportionalGain := 1, integralGain := 1, derivativeGain := 0,
    prevControlError := 0, integral := 0, derivative := 0,
    outputLimit := newLimit (ofQ 3) (ofQ (-3)),
    integralLimit := newLimit (ofQ 3) (ofQ (-3)),
    lowPassFilterError := 0, lowPassFilterDerivative := 0, trapezoidalIntegral := false }

/-- The controller produced by
`New(WithProportionalGain(1), WithLowPassFilterError(1))`: zero integral and
derivative gains but a non-zero error filter. -/
def cFiltered : Controller :=
  { proportionalGain := 1, integralGain := 0, derivativeGain := 0,
    prevControlError := 0, integral := 0, derivative := 0,
    outputLimit := newLimit ⊥ ⊤, integralLimit := newLimit ⊥ ⊤,
    lowPassFilterError := 1, lowPassFilterDerivative := 0, trapezoidalIntegral := false }

/-- The controller produced by `New(WithOutputLimit(-3, 3))`: a well-formed
finite output bound with the default gains. -/
def cBounded : Controller :=
  { proportionalGain := 1, integralGain := 0, derivativeGain := 0,
    prevControlError := 0, integral := 0, derivative := 0,
    outputLimit := newLimit (ofQ (-3)) (ofQ 3), integralLimit := newLimit ⊥ ⊤,
    lowPassFilterError := 0, lowPassFilterDerivative := 0, trapezoidalIntegral := false }

/-- The controller produced by
`New(WithIntegralGain(2), WithOutputLimit(-4, 6))` (in either option order):
the anti-windup bound `integralLimit = (-4/2, 6/2) = (-2, 3)` is derived after
all options have been applied. -/
def cAntiWindup : Controller :=
  { proportionalGain := 1, integralGain := 2, derivativeGain := 0,
    prevControlError := 0, integral := 0, derivative := 0,
    outputLimit := newLimit (ofQ (-4)) (ofQ 6),
    integralLimit := newLimit (ofQ (-2)) (ofQ 3),
    lowPassFilterError := 0, lowPassFilterDerivative := 0, trapezoidalIntegral := false }

end Pid

namespace PidMetrics

/-!
Model of the Prometheus metrics registration code (part_001).  The Prometheus
client library itself is an external collaborator; its `Registerer.Register`
behaviour is modelled from the spec's boundary contract: registering a
collector whose descriptor (fully-qualified name and label names) is already
present yields `AlreadyRegisteredError` carrying the existing collector,
registering a collector whose name collides with a different descriptor fails
with another error, and otherwise the collector is added.  Registry mutation
becomes explicit state passing.
-/

/-- The concrete Prometheus collector types used by `newMetrics`
(`*prometheus.CounterVec` and `*prometheus.GaugeVec`), which the generic
`register` helper's type assertion distinguishes. -/
inductive CollectorKind where
  | counterVec
  | gaugeVec
deriving DecidableEq

/-- A Prometheus collector: its Go type together with its descriptor (metric
name and label names). -/
structure Collector where
  kind : CollectorKind
  cname : String
  clabels : List String
deriving DecidableEq

/-- A Prometheus registry, modelled as the list of registered collectors. -/
abbrev Registry := List Collector

/-- Outcome of the external `Registerer.Register` call: success,
`prometheus.AlreadyRegisteredError` carrying the existing collector, or any
other registration error. -/
inductive RegisterOutcome where
  | registered
  | alreadyRegistered (existing : Collector)
  | failed (msg : String)
deriving DecidableEq

/-- Modelled from the spec: the external `prometheus.Registerer.Register`
boundary (the Prometheus client library is outside this repository).  A
collector with the same name and the same label names is a duplicate and
yields `AlreadyRegisteredError` with the existing collector; the same name
with a different descriptor is a non-duplicate registration error; otherwise
the collector is appended to the registry. -/
def registryRegister (reg : Registry) (c : Collector) : RegisterOutcome × Registry :=
  match reg.find? (fun d => d.cname == c.cname) with
  | some d =>
    if d.clabels = c.clabels then (.alreadyRegistered d, reg)
    else (.failed "duplicate metrics collector registration attempted", reg)
  | none => (.registered, reg ++ [c])

/-- Go `register` (part_001): registers the collector; on
`AlreadyRegisteredError` returns the existing collector when the type
assertion to the collector's own type succeeds, errors on a type mismatch,
and propagates every other registration error. -/
def register (reg : Registry) (collector : Collector) : Except String (Collector × Registry) :=
  match registryRegister reg collector with
  | (.registered, reg') => .ok (collector, reg')
  | (.alreadyRegistered existing, reg') =>
    if existing.kind = collector.kind then .ok (existing, reg')
    else .error "register: existing collector has unexpected type"
  | (.failed msg, _) => .error msg

/-- Go package-level `labels` (part_001): the single `name` label. -/
def labels : List String := ["name"]

/-- Go struct `metrics` (part_001): the four instruments plus the label value
(the controller name) they are reported under. -/
structure metrics where
  updatesTotal : Collector
  target : Collector
  current : Collector
  controlSignal : Collector
  labelName : String
deriving DecidableEq

/-- The counter `prometheus.NewCounterVec(CounterOpts{Name:
"pid_updates_total"}, labels)` built by `newMetrics`. -/
def updatesTotalCollector : Collector := ⟨.counterVec, "pid_updates_total", labels⟩

/-- The gauge `prometheus.NewGaugeVec(GaugeOpts{Name: "pid_target"},
labels)` built by `newMetrics`. -/
def targetCollector : Collector := ⟨.gaugeVec, "pid_target", labels⟩

/-- The gauge `prometheus.NewGaugeVec(GaugeOpts{Name: "pid_current"},
labels)` built by `newMetrics`. -/
def currentCollector : Collector := ⟨.gaugeVec, "pid_current", labels⟩

/-- The gauge `prometheus.NewGaugeVec(GaugeOpts{Name: "pid_control_signal"},
labels)` built by `newMetrics`. -/
def controlSignalCollector : Collector := ⟨.gaugeVec, "pid_control_signal", labels⟩

/-- Go `newMetrics` (part_001): registers the update counter and the three
gauges in sequence through `register`, propagating any error. -/
def newMetrics (name : String) (reg : Registry) : Except String (metrics × Registry) := do
  let (updatesTotal, reg) ← register reg updatesTotalCollector
  let (target, reg) ← register reg targetCollector
  let (current, reg) ← register reg currentCollector
  let (controlSignal, reg) ← register reg controlSignalCollector
  return ({ updatesTotal := updatesTotal
            target := target
            current := current
            controlSignal := controlSignal
            labelName := name }, reg)

/-- The metrics instance produced by `newMetrics "w"` against an empty
registry. -/
def mW : metrics :=
  ⟨updatesTotalCollector, targetCollector, currentCollector,
    controlSignalCollector, "w"⟩

/-- The registry state after `newMetrics "w"` against an empty registry. -/
def regW : Registry :=
  [updatesTotalCollector, targetCollector, currentCollector, controlSignalCollector]

/-- A registry holds, for the descriptor of `c`, exactly the collector `r`
(same name search hit, identical labels, and the Go type `register` asserts). -/
def RegisteredAt (reg : Registry) (c r : Collector) : Prop :=
  reg.find? (fun d => d.cname == c.cname) = some r ∧ r.clabels = c.clabels ∧ r.kind = c.kind

end PidMetrics

namespace Pid

/-! Bridging lemmas between `limit.clampQ` and the lattice form of
`limit.apply`, and basic facts about the embedding `ofQ`. -/

theorem ofQ_le_ofQ {a b : ℚ} : ofQ a ≤ ofQ b ↔ a ≤ b := by
  simp [ofQ]

theorem ofQ_lt_ofQ {a b : ℚ} : ofQ a < ofQ b ↔ a < b := by
  simp [ofQ]

theorem ofQ_ne_top (a : ℚ) : ofQ a ≠ (⊤ : F) := by
  simp [ofQ]

theorem ofQ_ne_bot (a : ℚ) : ofQ a ≠ (⊥ : F) := by
  simp [ofQ]

theorem clampQ_coe_coe (a b v : ℚ) :
    (newLimit (ofQ a) (ofQ b)).clampQ v = min (max a v) b := by
  simp only [limit.clampQ, limit.apply, newLimit, ofQ]
  rw [← WithBot.coe_max, ← WithTop.coe_max, ← WithBot.coe_min, ← WithTop.coe_min,
    WithBot.unbot'_coe, WithTop.untop'_coe]

theorem clampQ_bot_top (v : ℚ) : (newLimit ⊥ ⊤ : limit).clampQ v = v := by
  simp only [limit.clampQ, limit.apply, newLimit, ofQ]
  simp

theorem clampQ_bot_coe (b v : ℚ) :
    (newLimit ⊥ (ofQ b)).clampQ v = min v b := by
  simp only [limit.clampQ, limit.apply, newLimit, ofQ]
  rw [bot_sup_eq, ← WithBot.coe_min, ← WithTop.coe_min,
    WithBot.unbot'_coe, WithTop.untop'_coe]

theorem clampQ_coe_top (a v : ℚ) :
    (newLimit (ofQ a) ⊤).clampQ v = max a v := by
  simp only [limit.clampQ, limit.apply, newLimit, ofQ]
  rw [inf_top_eq, ← WithBot.coe_max, ← WithTop.coe_max,
    WithBot.unbot'_coe, WithTop.untop'_coe]

theorem F_cases (x : F) : x = ⊥ ∨ x = ⊤ ∨ ∃ q : ℚ, x = ofQ q := by
  induction x using WithBot.recBotCoe with
  | bot => exact Or.inl rfl
  | coe y =>
    induction y using WithTop.recTopCoe with
    | top => exact Or.inr (Or.inl rfl)
    | coe q => exact Or.inr (Or.inr ⟨q, rfl⟩)

/-- For every limit the controller can actually hold (the lower bound is not
`+∞` and the upper bound is not `-∞`) whose bounds are not inverted, the
clamped value lies between the bounds. -/
theorem clampQ_mem (l : limit) (h1 : l.lower ≤ l.upper) (h2 : l.lower ≠ ⊤)
    (h3 : l.upper ≠ ⊥) (v : ℚ) :
    l.lower ≤ ofQ (l.clampQ v) ∧ ofQ (l.clampQ v) ≤ l.upper := by
  obtain ⟨lo, up⟩ := l
  simp only at h1 h2 h3 ⊢
  rcases F_cases lo with hl | hl | ⟨a, hl⟩ <;> subst hl
  · rcases F_cases up with hu | hu | ⟨b, hu⟩ <;> subst hu
    · exact absurd rfl h3
    · show _ ≤ ofQ ((newLimit ⊥ ⊤).clampQ v) ∧ _
      rw [clampQ_bot_top]
      exact ⟨bot_le, le_top⟩
    · show _ ≤ ofQ ((newLimit ⊥ (ofQ b)).clampQ v) ∧ _
      rw [clampQ_bot_coe]
      exact ⟨bot_le, ofQ_le_ofQ.mpr (min_le_right _ _)⟩
  · exact absurd rfl h2
  · rcases F_cases up with hu | hu | ⟨b, hu⟩ <;> subst hu
    · exact absurd rfl h3
    · show _ ≤ ofQ ((newLimit (ofQ a) ⊤).clampQ v) ∧ _
      rw [clampQ_coe_top]
      exact ⟨ofQ_le_ofQ.mpr (le_max_left _ _), le_top⟩
    · show _ ≤ ofQ ((newLimit (ofQ a) (ofQ b)).clampQ v) ∧ _
      rw [clampQ_coe_coe]
      have hab : a ≤ b := ofQ_le_ofQ.mp h1
      exact ⟨ofQ_le_ofQ.mpr (le_min (le_max_left _ _) hab),
        ofQ_le_ofQ.mpr (min_le_right _ _)⟩

end Pid

namespace Pid

theorem edivPos_ofQ (a g : ℚ) : edivPos (ofQ a) g = ofQ (a / g) := rfl

theorem edivPos_bot (g : ℚ) : edivPos ⊥ g = ⊥ := rfl

theorem edivPos_top (g : ℚ) : edivPos ⊤ g = (⊤ : F) := rfl

/-- The shape of the `integralLimit` derivation performed at the end of `New`,
expressed through the fields of the constructed controller (which copies
`outputLimit` and `integralGain` unchanged from the final configuration). -/
theorem New_integralLimit (opts : List Option) (c : Controller)
    (h : New opts = .ok c) :
    c.integralLimit =
      if 0 < c.integralGain then
        newLimit (edivPos c.outputLimit.lower c.integralGain)
          (edivPos c.outputLimit.upper c.integralGain)
      else newLimit ⊥ ⊤ := by
  simp only [New, bind, Except.bind] at h
  cases hw : WithOptions opts
      { proportionalGain := 1, integralGain := 0, derivativeGain := 0,
        outputLimit := newLimit ⊥ ⊤, trapezoidalIntegral := false,
        lowPassFilterError := 0, lowPassFilterDerivative := 0 } with
  | error e => rw [hw] at h; exact absurd h (by simp)
  | ok cfg =>
    rw [hw] at h
    simp only [pure, Except.pure, Except.ok.injEq] at h
    subst h
    rfl

/-- C10: a `limit` constructed with inverted bounds `lower > upper` is not
rejected by `newLimit`, and `apply` then returns the upper bound for every
input value: `min(max(lower, v), upper)` collapses the empty interval to its
upper bound. -/
theorem apply_inverted_collapses_to_upper (lower upper : ℚ) (v : F)
    (h : upper < lower) :
    (newLimit (ofQ lower) (ofQ upper)).lower = ofQ lower ∧
    (newLimit (ofQ lower) (ofQ upper)).upper = ofQ upper ∧
    (newLimit (ofQ lower) (ofQ upper)).apply v = ofQ upper := by
  refine ⟨rfl, rfl, ?_⟩
  have hlt : ofQ upper < ofQ lower := ofQ_lt_ofQ.mpr h
  exact min_eq_right (le_trans hlt.le (le_max_left _ _))

/-- Witness for C10 at `lower = 3`, `upper = -3`, `v = 0`. -/
theorem apply_inverted_collapses_to_upper_witness :
    ((-3 : ℚ) < 3) ∧ (newLimit (ofQ 3) (ofQ (-3))).apply (ofQ 0) = ofQ (-3) :=
  ⟨by norm_num, (apply_inverted_collapses_to_upper 3 (-3) (ofQ 0) (by norm_num)).2.2⟩

/-- C7: the Ziegler-Nichols option is extensionally the standard-form option
at `Kp = 0.6 Ku`, `Ti = Tu/2`, `Td = Tu/8`: applied to any options state the
two produce the same configuration. -/
theorem WithZieglerNicholsMethod_eq_standardForm
    (ultimateGain oscillationPeriod : ℚ) (o : options) :
    WithZieglerNicholsMethod ultimateGain oscillationPeriod o =
      WithStandardForm (0.6 * ultimateGain) (oscillationPeriod / 2)
        (oscillationPeriod / 8) o := rfl

/-- C5: the standard-form option sets `proportionalGain = Kp`,
`integralGain = Kp / Ti`, `derivativeGain = Kp * Td`,
`derivativeFilterConstant = Td / 8`, `errorFilterConstant = Td / 64`, leaving
the rest of the configuration unchanged; at `(Kp, Ti, Td) = (2, 1, 0.25)` the
derived fields are exactly `2`, `2`, `1/2`, `1/256` and `1/32`. -/
theorem WithStandardForm_fields :
    (∀ (Kp Ti Td : ℚ) (o : options),
      WithStandardForm Kp Ti Td o = .ok { o with
        proportionalGain := Kp
        integralGain := Kp / Ti
        derivativeGain := Kp * Td
        lowPassFilterDerivative := Td / 8
        lowPassFilterError := Td / 64 }) ∧
    (∀ o : options,
      (WithStandardForm 2 1 0.25 o).map (fun r =>
        (r.proportionalGain, r.integralGain, r.derivativeGain,
          r.lowPassFilterError, r.lowPassFilterDerivative)) =
        .ok (2, 2, 1/2, 1/256, 1/32)) := by
  constructor
  · intro Kp Ti Td o
    rfl
  · intro o
    simp only [WithStandardForm, Except.map]
    norm_num

/-- C8: one `Update` call changes exactly the three step-memory fields,
assigning `prevControlError` the (possibly filtered) error,
`integral` the clamped accumulation and `derivative` the new derivative
estimate; the gains, both limits, both filter constants and the
integration-mode flag are unchanged. -/
theorem Update_frame (c : Controller) (target current : ℚ) (delta : ℤ) :
    let step : ℚ := (delta : ℚ) / 1000000000
    let controlError :=
      if c.lowPassFilterError ≠ 0 then
        ((target - current) * step + c.prevControlError * c.lowPassFilterError) /
          (c.lowPassFilterError + step)
      else target - current
    let c' := (c.Update target current delta).1
    c'.proportionalGain = c.proportionalGain ∧
    c'.integralGain = c.integralGain ∧
    c'.derivativeGain = c.derivativeGain ∧
    c'.outputLimit = c.outputLimit ∧
    c'.integralLimit = c.integralLimit ∧
    c'.lowPassFilterError = c.lowPassFilterError ∧
    c'.lowPassFilterDerivative = c.lowPassFilterDerivative ∧
    c'.trapezoidalIntegral = c.trapezoidalIntegral ∧
    c'.prevControlError = controlError ∧
    c'.integral = c.integralLimit.clampQ (c.updateIntegral controlError step) ∧
    c'.derivative = c.updateDerivative controlError step :=
  ⟨rfl, rfl, rfl, rfl, rfl, rfl, rfl, rfl, rfl, rfl, rfl⟩

end Pid

namespace Pid

/-- C4 (amended): with `integralGain = 0`, `derivativeGain = 0` and no error
filter (`errorFilterConstant = 0`), `Update` returns
`clamp(proportionalGain * (target - current))` under the configured output
limit, for every controller state — hence independently of call history. -/
theorem Update_pure_proportional (c : Controller) (target current : ℚ)
    (delta : ℤ) (hI : c.integralGain = 0) (hD : c.derivativeGain = 0)
    (hF : c.lowPassFilterError = 0) :
    (c.Update target current delta).2 =
      c.outputLimit.clampQ (c.proportionalGain * (target - current)) := by
  simp [Controller.Update, hI, hD, hF]

/-- Witness for C4 on the controller built by `New(WithOutputLimit(-3, 3))`
at `target = 10`, `current = 7`, `delta = 1s`. -/
theorem Update_pure_proportional_witness :
    (cBounded.integralGain = 0 ∧ cBounded.derivativeGain = 0 ∧
      cBounded.lowPassFilterError = 0) ∧
    (cBounded.Update 10 7 1000000000).2 =
      cBounded.outputLimit.clampQ (cBounded.proportionalGain * (10 - 7)) :=
  ⟨⟨rfl, rfl, rfl⟩, Update_pure_proportional cBounded 10 7 1000000000 rfl rfl rfl⟩

/-- Counterexample to C4 as stated: the configuration
`New(WithProportionalGain(1), WithLowPassFilterError(1))` has
`integralGain = 0` and `derivativeGain = 0`, yet already the first
`Update(2, 0, 1s)` returns `1`, not
`clamp(proportionalGain * (target - current)) = 2`: the error low-pass filter
makes the output depend on `prevControlError`, so the claimed equation fails
and the output is history-dependent. -/
theorem Update_pure_proportional_counterexample :
    New [WithProportionalGain 1, WithLowPassFilterError 1] = .ok cFiltered ∧
    cFiltered.integralGain = 0 ∧ cFiltered.derivativeGain = 0 ∧
    (cFiltered.Update 2 0 1000000000).2 = 1 ∧
    cFiltered.outputLimit.clampQ (cFiltered.proportionalGain * (2 - 0)) = 2 ∧
    (1 : ℚ) ≠ 2 := by
  refine ⟨rfl, rfl, rfl, ?_, ?_, by norm_num⟩
  · simp [Controller.Update, Controller.updateIntegral, Controller.updateDerivative,
      cFiltered, clampQ_bot_top]
    norm_num
  · simp [cFiltered, clampQ_bot_top]

/-- C1 (amended): whenever the configured output bounds are not inverted
(`lower ≤ upper`; bounds may be the infinite defaults), the value returned by
`Update` lies within `outputLimit`, for every controller state and all
inputs, including when the unclamped weighted sum would exceed the bound. -/
theorem Update_output_within_outputLimit (c : Controller) (target current : ℚ)
    (delta : ℤ) (h1 : c.outputLimit.lower ≤ c.outputLimit.upper)
    (h2 : c.outputLimit.lower ≠ ⊤) (h3 : c.outputLimit.upper ≠ ⊥) :
    c.outputLimit.lower ≤ ofQ (c.Update target current delta).2 ∧
    ofQ (c.Update target current delta).2 ≤ c.outputLimit.upper :=
  clampQ_mem c.outputLimit h1 h2 h3 _

/-- Witness for C1 on the controller built by `New(WithOutputLimit(-3, 3))`:
the unclamped proportional output at `target = 10`, `current = 7` is `3`,
inside the bound. -/
theorem Update_output_within_outputLimit_witness :
    (cBounded.outputLimit.lower ≤ cBounded.outputLimit.upper ∧
      cBounded.outputLimit.lower ≠ ⊤ ∧ cBounded.outputLimit.upper ≠ ⊥) ∧
    (cBounded.outputLimit.lower ≤ ofQ (cBounded.Update 10 7 1000000000).2 ∧
      ofQ (cBounded.Update 10 7 1000000000).2 ≤ cBounded.outputLimit.upper) :=
  ⟨⟨by rw [show cBounded.outputLimit.lower = ofQ (-3) from rfl,
        show cBounded.outputLimit.upper = ofQ 3 from rfl, ofQ_le_ofQ]; norm_num,
    ofQ_ne_top (-3), ofQ_ne_bot 3⟩,
    Update_output_within_outputLimit cBounded 10 7 1000000000
      (by rw [show cBounded.outputLimit.lower = ofQ (-3) from rfl,
        show cBounded.outputLimit.upper = ofQ 3 from rfl, ofQ_le_ofQ]; norm_num)
      (ofQ_ne_top (-3)) (ofQ_ne_bot 3)⟩

/-- Counterexample to C1 as stated: the code accepts the inverted
configuration `New(WithOutputLimit(3, -3))`, and `Update(10, 0, 1s)` then
returns `-3`, which does not lie within the configured interval `[3, -3]`
(it is below the configured lower bound `3`). -/
theorem Update_output_within_outputLimit_counterexample :
    New [WithOutputLimit 3 (-3)] = .ok cInverted ∧
    (cInverted.Update 10 0 1000000000).2 = -3 ∧
    ¬ (cInverted.outputLimit.lower ≤ ofQ (cInverted.Update 10 0 1000000000).2) := by
  have hout : (cInverted.Update 10 0 1000000000).2 = -3 := by
    simp [Controller.Update, Controller.updateIntegral, Controller.updateDerivative,
      cInverted, clampQ_bot_top, clampQ_coe_coe]
  refine ⟨rfl, hout, ?_⟩
  rw [hout, show cInverted.outputLimit.lower = ofQ 3 from rfl, ofQ_le_ofQ]
  norm_num

/-- C3 (amended): whenever the derived `integralLimit` bounds are not
inverted (`lower ≤ upper`; in particular for every configuration whose
output bounds are not inverted), the integral accumulator lies within
`integralLimit` immediately after every `Update` call; moreover on every call
the accumulator is first updated with the new error contribution
(`updateIntegral`, rectangular or trapezoidal) and the clamp is applied after
that accumulation. -/
theorem integral_within_integralLimit_after_Update (c : Controller)
    (target current : ℚ) (delta : ℤ)
    (h1 : c.integralLimit.lower ≤ c.integralLimit.upper)
    (h2 : c.integralLimit.lower ≠ ⊤) (h3 : c.integralLimit.upper ≠ ⊥) :
    (c.integralLimit.lower ≤ ofQ (c.Update target current delta).1.integral ∧
      ofQ (c.Update target current delta).1.integral ≤ c.integralLimit.upper) ∧
    (c.Update target current delta).1.integral =
      c.integralLimit.clampQ (c.updateIntegral
        (if c.lowPassFilterError ≠ 0 then
          ((target - current) * ((delta : ℚ) / 1000000000) +
            c.prevControlError * c.lowPassFilterError) /
            (c.lowPassFilterError + (delta : ℚ) / 1000000000)
        else target - current) ((delta : ℚ) / 1000000000)) :=
  ⟨clampQ_mem c.integralLimit h1 h2 h3 _, rfl⟩

/-- Witness for C3 on the controller built by
`New(WithIntegralGain(2), WithOutputLimit(-4, 6))`, whose derived
`integralLimit` is `(-2, 3)`, at `target = 10`, `current = 7`, `delta = 1s`. -/
theorem integral_within_integralLimit_after_Update_witness :
    (cAntiWindup.integralLimit.lower ≤ cAntiWindup.integralLimit.upper ∧
      cAntiWindup.integralLimit.lower ≠ ⊤ ∧ cAntiWindup.integralLimit.upper ≠ ⊥) ∧
    (cAntiWindup.integralLimit.lower ≤
        ofQ (cAntiWindup.Update 10 7 1000000000).1.integral ∧
      ofQ (cAntiWindup.Update 10 7 1000000000).1.integral ≤
        cAntiWindup.integralLimit.upper) :=
  ⟨⟨by rw [show cAntiWindup.integralLimit.lower = ofQ (-2) from rfl,
        show cAntiWindup.integralLimit.upper = ofQ 3 from rfl, ofQ_le_ofQ]; norm_num,
    ofQ_ne_top (-2), ofQ_ne_bot 3⟩,
    (integral_within_integralLimit_after_Update cAntiWindup 10 7 1000000000
      (by rw [show cAntiWindup.integralLimit.lower = ofQ (-2) from rfl,
        show cAntiWindup.integralLimit.upper = ofQ 3 from rfl, ofQ_le_ofQ]; norm_num)
      (ofQ_ne_top (-2)) (ofQ_ne_bot 3)).1⟩

/-- Counterexample to C3 as stated: with
`New(WithIntegralGain(1), WithOutputLimit(3, -3))` the derived
`integralLimit` is the inverted interval `(3, -3)`; after `Update(10, 0, 1s)`
the accumulator is `-3`, which is not within that interval (it is below the
lower bound `3`). -/
theorem integral_within_integralLimit_counterexample :
    New [WithIntegralGain 1, WithOutputLimit 3 (-3)] = .ok cInvertedKi ∧
    cInvertedKi.integralLimit = newLimit (ofQ 3) (ofQ (-3)) ∧
    (cInvertedKi.Update 10 0 1000000000).1.integral = -3 ∧
    ¬ (cInvertedKi.integralLimit.lower ≤
        ofQ (cInvertedKi.Update 10 0 1000000000).1.integral) := by
  have hnew : New [WithIntegralGain 1, WithOutputLimit 3 (-3)] = .ok cInvertedKi := by
    simp only [New, WithOptions, WithIntegralGain, WithOutputLimit, bind, Except.bind,
      List.foldlM, pure, Except.pure]
    norm_num [edivPos_ofQ, newLimit, cInvertedKi, Controller.mk.injEq, limit.mk.injEq]
  have hint : (cInvertedKi.Update 10 0 1000000000).1.integral = -3 := by
    simp [Controller.Update, Controller.updateIntegral, Controller.updateDerivative,
      cInvertedKi, clampQ_coe_coe]
  refine ⟨hnew, rfl, hint, ?_⟩
  rw [hint, show cInvertedKi.integralLimit.lower = ofQ 3 from rfl, ofQ_le_ofQ]
  norm_num

end Pid

namespace Pid

/-- Evaluation of `New(WithIntegralGain(2), WithOutputLimit(-4, 6))`. -/
theorem New_cAntiWindup_fst :
    New [WithIntegralGain 2, WithOutputLimit (-4) 6] = .ok cAntiWindup := by
  simp only [New, WithOptions, WithIntegralGain, WithOutputLimit, bind, Except.bind,
    List.foldlM, pure, Except.pure]
  norm_num [edivPos_ofQ, newLimit, cAntiWindup, Controller.mk.injEq, limit.mk.injEq]

/-- Evaluation of `New(WithOutputLimit(-4, 6), WithIntegralGain(2))`: the
options in the opposite order yield the same controller. -/
theorem New_cAntiWindup_snd :
    New [WithOutputLimit (-4) 6, WithIntegralGain 2] = .ok cAntiWindup := by
  simp only [New, WithOptions, WithIntegralGain, WithOutputLimit, bind, Except.bind,
    List.foldlM, pure, Except.pure]
  norm_num [edivPos_ofQ, newLimit, cAntiWindup, Controller.mk.injEq, limit.mk.injEq]

/-- Every state reached by iterating `Update` from a state whose integral
accumulator lies within a finite, ordered `integralLimit` keeps the
accumulator within that limit, and keeps the gain and the limit themselves
unchanged. -/
theorem runUpdates_integral_mem (Ki L U : ℚ) (hKi : 0 < Ki) (hLU : L ≤ U) :
    ∀ (calls : List (ℚ × ℚ × ℤ)) (c : Controller),
      c.integralGain = Ki →
      c.integralLimit = newLimit (ofQ (L / Ki)) (ofQ (U / Ki)) →
      L / Ki ≤ c.integral → c.integral ≤ U / Ki →
      (L / Ki ≤ (runUpdates c calls).integral ∧
        (runUpdates c calls).integral ≤ U / Ki) ∧
      (runUpdates c calls).integralGain = Ki ∧
      (runUpdates c calls).integralLimit = newLimit (ofQ (L / Ki)) (ofQ (U / Ki)) := by
  intro calls
  induction calls with
  | nil => exact fun c hg hl h1 h2 => ⟨⟨h1, h2⟩, hg, hl⟩
  | cons a rest ih =>
    intro c hg hl _ _
    have hdiv : L / Ki ≤ U / Ki := (div_le_div_iff_of_pos_right hKi).mpr hLU
    have hrun : runUpdates c (a :: rest) =
        runUpdates (c.Update a.1 a.2.1 a.2.2).1 rest := rfl
    have hint : (c.Update a.1 a.2.1 a.2.2).1.integral =
        c.integralLimit.clampQ
          ((c.updateIntegral (if c.lowPassFilterError ≠ 0 then
              ((a.1 - a.2.1) * ((a.2.2 : ℚ) / 1000000000) +
                c.prevControlError * c.lowPassFilterError) /
                (c.lowPassFilterError + (a.2.2 : ℚ) / 1000000000)
            else a.1 - a.2.1) ((a.2.2 : ℚ) / 1000000000))) := rfl
    rw [hrun]
    refine ih (c.Update a.1 a.2.1 a.2.2).1 hg hl ?_ ?_ <;>
      rw [hint, hl, clampQ_coe_coe]
    · exact le_min (le_max_left _ _) hdiv
    · exact min_le_right _ _

/-- C2 (amended): for every controller constructed with `integralGain > 0`
and a finite, ordered output bound `[L, U]` (`L ≤ U`), after every non-empty
sequence of `Update` calls the product
`integralGain * integralAccumulator` lies within `[L, U]`: the accumulator is
clamped to the derived `integralLimit = [L/integralGain, U/integralGain]` on
every call. -/
theorem antiWindup_integral_within_bound (opts : List Option) (c₀ : Controller)
    (L U : ℚ) (hnew : New opts = .ok c₀) (hKi : 0 < c₀.integralGain)
    (hout : c₀.outputLimit = newLimit (ofQ L) (ofQ U)) (hLU : L ≤ U)
    (calls : List (ℚ × ℚ × ℤ)) (hne : calls ≠ []) :
    L ≤ c₀.integralGain * (runUpdates c₀ calls).integral ∧
      c₀.integralGain * (runUpdates c₀ calls).integral ≤ U := by
  have hlim : c₀.integralLimit =
      newLimit (ofQ (L / c₀.integralGain)) (ofQ (U / c₀.integralGain)) := by
    have h := New_integralLimit opts c₀ hnew
    rw [hout] at h
    simpa [hKi, newLimit, edivPos_ofQ] using h
  cases calls with
  | nil => exact absurd rfl hne
  | cons a rest =>
    have hdiv : L / c₀.integralGain ≤ U / c₀.integralGain :=
      (div_le_div_iff_of_pos_right hKi).mpr hLU
    have hrun : runUpdates c₀ (a :: rest) =
        runUpdates (c₀.Update a.1 a.2.1 a.2.2).1 rest := rfl
    have hint : (c₀.Update a.1 a.2.1 a.2.2).1.integral =
        c₀.integralLimit.clampQ
          ((c₀.updateIntegral (if c₀.lowPassFilterError ≠ 0 then
              ((a.1 - a.2.1) * ((a.2.2 : ℚ) / 1000000000) +
                c₀.prevControlError * c₀.lowPassFilterError) /
                (c₀.lowPassFilterError + (a.2.2 : ℚ) / 1000000000)
            else a.1 - a.2.1) ((a.2.2 : ℚ) / 1000000000))) := rfl
    have hmem := runUpdates_integral_mem c₀.integralGain L U hKi hLU rest
      (c₀.Update a.1 a.2.1 a.2.2).1 rfl hlim
      (by rw [hint, hlim, clampQ_coe_coe]; exact le_min (le_max_left _ _) hdiv)
      (by rw [hint, hlim, clampQ_coe_coe]; exact min_le_right _ _)
    rw [hrun]
    constructor
    · have := hmem.1.1
      rw [div_le_iff₀ hKi] at this
      linarith [this]
    · have := hmem.1.2
      rw [le_div_iff₀ hKi] at this
      linarith [this]

/-- Witness for C2: `New(WithIntegralGain(2), WithOutputLimit(-4, 6))`
followed by one update at `target = 10`, `current = 7`, `delta = 1s`; the
accumulator saturates at `3` and `2 * 3 = 6` stays within `[-4, 6]`. -/
theorem antiWindup_integral_within_bound_witness :
    New [WithIntegralGain 2, WithOutputLimit (-4) 6] = .ok cAntiWindup ∧
    (0 < cAntiWindup.integralGain) ∧
    cAntiWindup.outputLimit = newLimit (ofQ (-4)) (ofQ 6) ∧
    ((-4 : ℚ) ≤ 6) ∧
    ([((10 : ℚ), (7 : ℚ), (1000000000 : ℤ))] ≠ ([] : List (ℚ × ℚ × ℤ))) ∧
    (-4 ≤ cAntiWindup.integralGain *
        (runUpdates cAntiWindup [(10, 7, 1000000000)]).integral ∧
      cAntiWindup.integralGain *
        (runUpdates cAntiWindup [(10, 7, 1000000000)]).integral ≤ 6) :=
  ⟨New_cAntiWindup_fst, by show (0 : ℚ) < 2; norm_num, rfl, by norm_num,
    by simp,
    antiWindup_integral_within_bound [WithIntegralGain 2, WithOutputLimit (-4) 6]
      cAntiWindup (-4) 6 New_cAntiWindup_fst (by show (0 : ℚ) < 2; norm_num) rfl
      (by norm_num) [(10, 7, 1000000000)] (by simp)⟩

/-- Counterexample to C2 as stated: with
`New(WithIntegralGain(1), WithOutputLimit(3, -3))` — `integralGain > 0` and a
finite output bound whose written interval `[L, U] = [3, -3]` is inverted —
one update at `target = 10` leaves
`integralGain * integralAccumulator = -3`, which is not within `[3, -3]`. -/
theorem antiWindup_integral_within_bound_counterexample :
    New [WithIntegralGain 1, WithOutputLimit 3 (-3)] = .ok cInvertedKi ∧
    (0 < cInvertedKi.integralGain) ∧
    cInvertedKi.outputLimit = newLimit (ofQ 3) (ofQ (-3)) ∧
    cInvertedKi.integralGain *
      (runUpdates cInvertedKi [(10, 0, 1000000000)]).integral = -3 ∧
    ¬ ((3 : ℚ) ≤ -3) := by
  have hnew : New [WithIntegralGain 1, WithOutputLimit 3 (-3)] = .ok cInvertedKi := by
    simp only [New, WithOptions, WithIntegralGain, WithOutputLimit, bind, Except.bind,
      List.foldlM, pure, Except.pure]
    norm_num [edivPos_ofQ, newLimit, cInvertedKi, Controller.mk.injEq, limit.mk.injEq]
  refine ⟨hnew, by show (0 : ℚ) < 1; norm_num, rfl, ?_, by norm_num⟩
  show cInvertedKi.integralGain * ((cInvertedKi.Update 10 0 1000000000).1).integral = -3
  simp [Controller.Update, Controller.updateIntegral, Controller.updateDerivative,
    cInvertedKi, clampQ_coe_coe]

/-- C6: for every option sequence accepted by `New`, the derived
`integralLimit` is `(outputLimit.lower / integralGain,
outputLimit.upper / integralGain)` when the final `integralGain > 0` and
`(-∞, +∞)` otherwise; and because the derivation runs after all options, any
two option sequences yielding the same final `outputLimit` and `integralGain`
yield the same `integralLimit`, regardless of option order. -/
theorem New_derives_integralLimit_last :
    (∀ (opts : List Option) (c : Controller), New opts = .ok c →
      c.integralLimit =
        if 0 < c.integralGain then
          newLimit (edivPos c.outputLimit.lower c.integralGain)
            (edivPos c.outputLimit.upper c.integralGain)
        else newLimit ⊥ ⊤) ∧
    (∀ (opts₁ opts₂ : List Option) (c₁ c₂ : Controller),
      New opts₁ = .ok c₁ → New opts₂ = .ok c₂ →
      c₁.outputLimit = c₂.outputLimit → c₁.integralGain = c₂.integralGain →
      c₁.integralLimit = c₂.integralLimit) := by
  refine ⟨New_integralLimit, ?_⟩
  intro opts₁ opts₂ c₁ c₂ h1 h2 hout hKi
  rw [New_integralLimit opts₁ c₁ h1, New_integralLimit opts₂ c₂ h2, hout, hKi]

/-- Witness for C6: `New(WithIntegralGain(2), WithOutputLimit(-4, 6))` in
both option orders produces `integralLimit = (-4/2, 6/2) = (-2, 3)`. -/
theorem New_derives_integralLimit_last_witness :
    New [WithIntegralGain 2, WithOutputLimit (-4) 6] = .ok cAntiWindup ∧
    New [WithOutputLimit (-4) 6, WithIntegralGain 2] = .ok cAntiWindup ∧
    cAntiWindup.integralLimit = newLimit (ofQ (-2)) (ofQ 3) := by
  refine ⟨New_cAntiWindup_fst, New_cAntiWindup_snd, ?_⟩
  have h := New_derives_integralLimit_last.1 _ _ New_cAntiWindup_fst
  have h2 := New_derives_integralLimit_last.2
    [WithIntegralGain 2, WithOutputLimit (-4) 6]
    [WithOutputLimit (-4) 6, WithIntegralGain 2]
    cAntiWindup cAntiWindup New_cAntiWindup_fst New_cAntiWindup_snd rfl rfl
  rw [h]
  norm_num [cAntiWindup, edivPos_ofQ, newLimit]

end Pid

namespace PidMetrics

/-! Computation lemmas for `register`, one per branch of the underlying
`Register` outcome. -/

theorem registryRegister_of_find_none (reg : Registry) (c : Collector)
    (hfind : reg.find? (fun d => d.cname == c.cname) = none) :
    registryRegister reg c = (.registered, reg ++ [c]) := by
  unfold registryRegister
  rw [hfind]

theorem registryRegister_of_find_dup (reg : Registry) (c d : Collector)
    (hfind : reg.find? (fun e => e.cname == c.cname) = some d)
    (hlab : d.clabels = c.clabels) :
    registryRegister reg c = (.alreadyRegistered d, reg) := by
  unfold registryRegister
  rw [hfind]
  exact if_pos hlab

theorem registryRegister_of_find_clash (reg : Registry) (c d : Collector)
    (hfind : reg.find? (fun e => e.cname == c.cname) = some d)
    (hlab : ¬ d.clabels = c.clabels) :
    registryRegister reg c =
      (.failed "duplicate metrics collector registration attempted", reg) := by
  unfold registryRegister
  rw [hfind]
  exact if_neg hlab

theorem register_of_find_none (reg : Registry) (c : Collector)
    (hfind : reg.find? (fun d => d.cname == c.cname) = none) :
    register reg c = .ok (c, reg ++ [c]) := by
  unfold register
  rw [registryRegister_of_find_none reg c hfind]

theorem register_of_find_dup_ok (reg : Registry) (c d : Collector)
    (hfind : reg.find? (fun e => e.cname == c.cname) = some d)
    (hlab : d.clabels = c.clabels) (hkind : d.kind = c.kind) :
    register reg c = .ok (d, reg) := by
  unfold register
  rw [registryRegister_of_find_dup reg c d hfind hlab]
  exact if_pos hkind

theorem register_of_find_dup_mismatch (reg : Registry) (c d : Collector)
    (hfind : reg.find? (fun e => e.cname == c.cname) = some d)
    (hlab : d.clabels = c.clabels) (hkind : ¬ d.kind = c.kind) :
    register reg c = .error "register: existing collector has unexpected type" := by
  unfold register
  rw [registryRegister_of_find_dup reg c d hfind hlab]
  exact if_neg hkind

theorem register_of_find_clash (reg : Registry) (c d : Collector)
    (hfind : reg.find? (fun e => e.cname == c.cname) = some d)
    (hlab : ¬ d.clabels = c.clabels) :
    register reg c =
      .error "duplicate metrics collector registration attempted" := by
  unfold register
  rw [registryRegister_of_find_clash reg c d hfind hlab]

/-- A successful `register` leaves the registry holding exactly the returned
collector for the requested descriptor. -/
theorem register_ok_registeredAt (reg reg' : Registry) (c r : Collector)
    (h : register reg c = .ok (r, reg')) : RegisteredAt reg' c r := by
  cases hfind : reg.find? (fun d => d.cname == c.cname) with
  | none =>
    rw [register_of_find_none reg c hfind] at h
    simp only [Except.ok.injEq, Prod.mk.injEq] at h
    obtain ⟨hr, hreg⟩ := h
    subst hr; subst hreg
    refine ⟨?_, rfl, rfl⟩
    simp [List.find?_append, hfind]
  | some d =>
    by_cases hlab : d.clabels = c.clabels
    · by_cases hkind : d.kind = c.kind
      · rw [register_of_find_dup_ok reg c d hfind hlab hkind] at h
        simp only [Except.ok.injEq, Prod.mk.injEq] at h
        obtain ⟨hr, hreg⟩ := h
        subst hr; subst hreg
        exact ⟨hfind, hlab, hkind⟩
      · rw [register_of_find_dup_mismatch reg c d hfind hlab hkind] at h
        exact absurd h (by simp)
    · rw [register_of_find_clash reg c d hfind hlab] at h
      exact absurd h (by simp)

/-- Registering a collector whose descriptor (with the asserted type) is
already held returns the existing collector, without error and without
touching the registry. -/
theorem registeredAt_register (reg : Registry) (c r : Collector)
    (h : RegisteredAt reg c r) : register reg c = .ok (r, reg) :=
  register_of_find_dup_ok reg c r h.1 h.2.1 h.2.2

/-- A successful registration under a different name does not disturb what
the registry holds for this descriptor. -/
theorem register_preserves_registeredAt (reg reg' : Registry)
    (c c₂ r r₂ : Collector)
    (h : RegisteredAt reg c r) (h2 : register reg c₂ = .ok (r₂, reg')) :
    RegisteredAt reg' c r := by
  cases hfind : reg.find? (fun d => d.cname == c₂.cname) with
  | none =>
    rw [register_of_find_none reg c₂ hfind] at h2
    simp only [Except.ok.injEq, Prod.mk.injEq] at h2
    obtain ⟨_, hreg⟩ := h2
    subst hreg
    refine ⟨?_, h.2.1, h.2.2⟩
    simp [List.find?_append, h.1]
  | some d =>
    by_cases hlab : d.clabels = c₂.clabels
    · by_cases hkind : d.kind = c₂.kind
      · rw [register_of_find_dup_ok reg c₂ d hfind hlab hkind] at h2
        simp only [Except.ok.injEq, Prod.mk.injEq] at h2
        obtain ⟨_, hreg⟩ := h2
        subst hreg
        exact h
      · rw [register_of_find_dup_mismatch reg c₂ d hfind hlab hkind] at h2
        exact absurd h2 (by simp)
    · rw [register_of_find_clash reg c₂ d hfind hlab] at h2
      exact absurd h2 (by simp)

end PidMetrics

namespace PidMetrics

/-- A successful `newMetrics` run is idempotent: running it again with the
same name against the resulting registry succeeds with the same metrics and
leaves the registry unchanged. -/
theorem newMetrics_idempotent (name : String) (reg : Registry) (m : metrics)
    (reg₂ : Registry) (h : newMetrics name reg = .ok (m, reg₂)) :
    newMetrics name reg₂ = .ok (m, reg₂) := by
  simp only [newMetrics, bind, Except.bind] at h ⊢
  cases h1 : register reg updatesTotalCollector with
  | error e => rw [h1] at h; exact absurd h (by simp)
  | ok p1 =>
  obtain ⟨r1, reg1⟩ := p1
  rw [h1] at h
  simp only [] at h
  cases h2 : register reg1 targetCollector with
  | error e => rw [h2] at h; exact absurd h (by simp)
  | ok p2 =>
  obtain ⟨r2, reg2x⟩ := p2
  rw [h2] at h
  simp only [] at h
  cases h3 : register reg2x currentCollector with
  | error e => rw [h3] at h; exact absurd h (by simp)
  | ok p3 =>
  obtain ⟨r3, reg3⟩ := p3
  rw [h3] at h
  simp only [] at h
  cases h4 : register reg3 controlSignalCollector with
  | error e => rw [h4] at h; exact absurd h (by simp)
  | ok p4 =>
  obtain ⟨r4, reg4⟩ := p4
  rw [h4] at h
  simp only [pure, Except.pure, Except.ok.injEq, Prod.mk.injEq] at h
  obtain ⟨hm, hreg⟩ := h
  subst hm
  subst hreg
  have A1 := register_ok_registeredAt reg reg1 updatesTotalCollector r1 h1
  have A1 := register_preserves_registeredAt reg1 reg2x _ targetCollector r1 r2 A1 h2
  have A1 := register_preserves_registeredAt reg2x reg3 _ currentCollector r1 r3 A1 h3
  have A1 := register_preserves_registeredAt reg3 reg4 _ controlSignalCollector r1 r4 A1 h4
  have A2 := register_ok_registeredAt reg1 reg2x targetCollector r2 h2
  have A2 := register_preserves_registeredAt reg2x reg3 _ currentCollector r2 r3 A2 h3
  have A2 := register_preserves_registeredAt reg3 reg4 _ controlSignalCollector r2 r4 A2 h4
  have A3 := register_ok_registeredAt reg2x reg3 currentCollector r3 h3
  have A3 := register_preserves_registeredAt reg3 reg4 _ controlSignalCollector r3 r4 A3 h4
  have A4 := register_ok_registeredAt reg3 reg4 controlSignalCollector r4 h4
  rw [registeredAt_register reg4 updatesTotalCollector r1 A1]
  simp only []
  rw [registeredAt_register reg4 targetCollector r2 A2]
  simp only []
  rw [registeredAt_register reg4 currentCollector r3 A3]
  simp only []
  rw [registeredAt_register reg4 controlSignalCollector r4 A4]
  rfl

end PidMetrics

namespace PidMetrics

/-- C9: metrics registration is idempotent per (name, registry) pair — a
second `newMetrics` run with the same name against the same registry returns
the already-registered instrument set and no error, and the `register` helper
returns the existing collector when the registry already holds an equal one
with the asserted type; every other registration error (a descriptor clash
reported by `Register`, or a type mismatch on the first instrument) is
propagated as an error from construction. -/
theorem registration_idempotent :
    (∀ (name : String) (reg : Registry) (m : metrics) (reg₂ : Registry),
      newMetrics name reg = .ok (m, reg₂) → newMetrics name reg₂ = .ok (m, reg₂)) ∧
    (∀ (reg : Registry) (c existing : Collector),
      RegisteredAt reg c existing → register reg c = .ok (existing, reg)) ∧
    (∀ (reg : Registry) (c : Collector) (msg : String),
      registryRegister reg c = (.failed msg, reg) → register reg c = .error msg) ∧
    (∀ (name : String) (reg : Registry) (msg : String),
      register reg updatesTotalCollector = .error msg →
      newMetrics name reg = .error msg) := by
  refine ⟨newMetrics_idempotent, ?_, ?_, ?_⟩
  · intro reg c existing h
    exact registeredAt_register reg c existing h
  · intro reg c msg h
    unfold register
    rw [h]
  · intro name reg msg h
    simp only [newMetrics, bind, Except.bind]
    rw [h]

/-- Witness for C9: building the metrics twice under the name `w` from an
empty registry (idempotence), re-registering the counter against the filled
registry (returns the existing collector), a label clash (error from
`Register` propagated by the helper), and a type clash on the counter (error
propagated out of `newMetrics`). -/
theorem registration_idempotent_witness :
    newMetrics "w" [] = .ok (mW, regW) ∧
    newMetrics "w" regW = .ok (mW, regW) ∧
    register regW updatesTotalCollector = .ok (updatesTotalCollector, regW) ∧
    register [⟨.counterVec, "pid_updates_total", ["other"]⟩] updatesTotalCollector =
      .error "duplicate metrics collector registration attempted" ∧
    newMetrics "bad" [⟨.gaugeVec, "pid_updates_total", labels⟩] =
      .error "register: existing collector has unexpected type" :=
  ⟨rfl,
    registration_idempotent.1 "w" [] mW regW rfl,
    registration_idempotent.2.1 regW updatesTotalCollector updatesTotalCollector
      ⟨rfl, rfl, rfl⟩,
    registration_idempotent.2.2.1 [⟨.counterVec, "pid_updates_total", ["other"]⟩]
      updatesTotalCollector "duplicate metrics collector registration attempted" rfl,
    registration_idempotent.2.2.2 "bad" [⟨.gaugeVec, "pid_updates_total", labels⟩]
      "register: existing collector has unexpected type" rfl⟩

end PidMetrics
